import Mathlib

/-!
Shallow embedding of the `WaveFormDataset` preparation and caching
subsystem of `src/phasenet/data/dataset.py`: time-window resolution,
per-component trace extraction, cache save/load and the random-access
sample assembler.  Times and sample values are modelled as exact
rationals, tensors as lists of lists of rationals; the obspy
signal-processing primitives are kept abstract (a `SignalEnv`
parameter), with an explicit log recording the order of the calls.
-/

namespace PhaseNet

/-- Python `int()` truncation toward zero, on an exact rational.
Used at line 103: `torch.zeros(3, int(sampling_rate*win_length))`. -/
def pyInt (q : ℚ) : ℤ := if 0 ≤ q then ⌊q⌋ else -⌊-q⌋

/-- Python 3 `round()` on an exact rational: nearest integer, ties to even.
Used at line 141 (`round(item*sampling_rate)`) and, in the spec's words,
by the formula `L = round(sampling_rate * win_length)`. -/
def pyRound (q : ℚ) : ℤ :=
  if q - ⌊q⌋ < 1/2 then ⌊q⌋
  else if 1/2 < q - ⌊q⌋ then ⌊q⌋ + 1
  else if ⌊q⌋ % 2 = 0 then ⌊q⌋ else ⌊q⌋ + 1

/-- Fields of `DataConfig` consumed by `WaveFormDataset`.  The field
`stack_ratio_v` embeds the source configuration key `stack_ratio`. -/
structure DataConfig where
  phases : List String
  left_extend : ℚ
  right_extend : ℚ
  win_length : ℚ
  taper_percentage : ℚ
  filter_freqmin : ℚ
  filter_freqmax : ℚ
  filter_corners : ℕ
  filter_zerophase : Bool
  stack_ratio_v : ℚ
deriving DecidableEq

/-- Minimum of a list of rationals, as Python `min` at line 77; the `[]`
case (where Python raises `ValueError`) is guarded in `addData`. -/
def listMin : List ℚ → ℚ
  | [] => 0
  | a :: t => t.foldl min a

/-- Relative window bounds and shifted arrival offsets computed by
`add_data` at lines 77-89, before the reference-time shift. -/
structure Windows where
  start : ℚ
  end_ : ℚ
  left_signal_start : ℚ
  left_signal_end : ℚ
  right_signal_start : ℚ
  right_signal_end : ℚ
  arrival_times : List ℚ
deriving DecidableEq

/-- Lines 77-89 of dataset.py: `start = min(arrival_times) - left_extend`,
`end = min(arrival_times) + right_extend`; if `start < 0` both bounds are
shifted by `-start`; the flanking windows span one `win_length` on each
side; arrival offsets are recomputed relative to the (shifted) `start`. -/
def resolveWindows (cfg : DataConfig) (arrival_times : List ℚ) : Windows :=
  let m := listMin arrival_times
  let start := if m - cfg.left_extend < 0 then 0 else m - cfg.left_extend
  let end_ := if m - cfg.left_extend < 0 then m + cfg.right_extend + -(m - cfg.left_extend)
              else m + cfg.right_extend
  { start := start
    end_ := end_
    left_signal_start := start - cfg.win_length
    left_signal_end := start
    right_signal_start := end_
    right_signal_end := end_ + cfg.win_length
    arrival_times := arrival_times.map (fun item => item - start) }

/-- An obspy trace: the absolute bounds `stats.starttime` and
`stats.endtime`, plus its sample values. -/
structure Trace where
  starttime : ℚ
  endtime : ℚ
  data : List ℚ

/-- The obspy operations called by `add_data`, kept abstract: the
embedding is parametric in their numerics, only their call order and the
data flow between them are modelled. -/
structure SignalEnv where
  detrend : Trace → Trace
  taper : ℚ → Trace → Trace
  bandpass : ℚ → ℚ → ℕ → Bool → Trace → Trace
  slice : ℚ → ℚ → Trace → List ℚ

/-- Log entry recording one obspy call made while processing a component. -/
inductive Op where
  | detrend : Op
  | taper : ℚ → Op
  | bandpass : ℚ → ℚ → ℕ → Bool → Op
  | slice : ℚ → ℚ → Op
deriving DecidableEq

/-- Lines 117-120: `trace.detrend()`, then
`trace.taper(max_percentage=...)`, then `trace.filter('bandpass', ...)`. -/
def conditioned (env : SignalEnv) (cfg : DataConfig) (t : Trace) : Trace :=
  env.bandpass cfg.filter_freqmin cfg.filter_freqmax cfg.filter_corners cfg.filter_zerophase
    (env.taper cfg.taper_percentage (env.detrend t))

/-- Row assignment `res[i, :] = wave_data[:L]` (lines 130 and 138): the
slice is first right-truncated at `L`; the assignment succeeds when the
truncated slice has exactly `L` samples, or exactly one sample (PyTorch
broadcasts a single value across the row); otherwise it is a runtime
shape mismatch, modelled as `none`. -/
def assignRow (L : ℕ) (w : List ℚ) : Option (List ℚ) :=
  if (w.take L).length = L then some (w.take L)
  else
    match w.take L with
    | [v] => some (List.replicate L v)
    | _ => none

/-- Lines 133-134: `left_wave_data = left_wave_data[:L]` then
`left_res[i, -len(left_wave_data):] = left_wave_data[:]`, right-aligning
the truncated slice into a zero-initialized row.  An empty slice with
`L > 0` selects the whole row (Python `-0` is `0`) and the assignment of
zero elements to it is a runtime error, modelled as `none`. -/
def leftPlace (L : ℕ) (w : List ℚ) : Option (List ℚ) :=
  if (w.take L).length = 0 then
    if L = 0 then some [] else none
  else some (List.replicate (L - (w.take L).length) 0 ++ w.take L)

/-- Failure modes of per-key preparation.  `insufficient` embeds the
`Exception(f-string about incorrect time or length)` raised at lines
112-115; `emptyArrivals` the `ValueError` of `min([])` at line 77;
`badLength` the `torch.zeros` rejection of a negative size at line 103;
`assignError` a tensor-assignment shape mismatch at lines 130-138. -/
inductive PrepError where
  | emptyArrivals : PrepError
  | badLength : PrepError
  | insufficient : PrepError
  | assignError : PrepError
deriving DecidableEq

/-- The three rows extracted for one component. -/
structure CompRows where
  res : List ℚ
  left_res : List ℚ
  right_res : List ℚ
deriving DecidableEq

/-- Absolute window bounds after the reference-time shift of lines 91-97. -/
structure AbsWindows where
  start : ℚ
  end_ : ℚ
  left_signal_start : ℚ
  left_signal_end : ℚ
  right_signal_start : ℚ
  right_signal_end : ℚ
deriving DecidableEq

/-- Lines 91-97: every relative bound is shifted by the record's
`REFTIME` reference time. -/
def absWindows (cfg : DataConfig) (ref_time : ℚ) (arrival_times : List ℚ) : AbsWindows :=
  { start := ref_time + (resolveWindows cfg arrival_times).start
    end_ := ref_time + (resolveWindows cfg arrival_times).end_
    left_signal_start := ref_time + (resolveWindows cfg arrival_times).left_signal_start
    left_signal_end := ref_time + (resolveWindows cfg arrival_times).left_signal_end
    right_signal_start := ref_time + (resolveWindows cfg arrival_times).right_signal_start
    right_signal_end := ref_time + (resolveWindows cfg arrival_times).right_signal_end }

/-- The obspy calls made for one component on the success path, in source
order (lines 117-126): detrend, taper, bandpass filter, then the three
window slices (main, left, right). -/
def condSliceLog (cfg : DataConfig) (w : AbsWindows) : List Op :=
  [Op.detrend, Op.taper cfg.taper_percentage,
   Op.bandpass cfg.filter_freqmin cfg.filter_freqmax cfg.filter_corners cfg.filter_zerophase,
   Op.slice w.start w.end_,
   Op.slice w.left_signal_start w.left_signal_end,
   Op.slice w.right_signal_start w.right_signal_end]

/-- Body of the `for i in range(3)` loop of `add_data` (lines 111-138)
for one component: the coverage check on the raw trace bounds (line 112),
then conditioning, slicing and row assignment.  The second value is the
log of obspy calls performed; a failed coverage check performs none. -/
def processComponent (env : SignalEnv) (cfg : DataConfig) (L : ℕ) (trace : Trace)
    (w : AbsWindows) : Except PrepError CompRows × List Op :=
  if w.start < trace.starttime ∨ trace.endtime < w.end_ ∨
      trace.endtime - cfg.win_length < w.end_ then
    (.error .insufficient, [])
  else
    match assignRow L (env.slice w.start w.end_ (conditioned env cfg trace)),
          leftPlace L (env.slice w.left_signal_start w.left_signal_end (conditioned env cfg trace)),
          assignRow L (env.slice w.right_signal_start w.right_signal_end (conditioned env cfg trace)) with
    | some r, some l, some rr => (.ok ⟨r, l, rr⟩, condSliceLog cfg w)
    | _, _, _ => (.error .assignError, condSliceLog cfg w)

/-- Per-key contents of the ASDF archive consumed by `add_data`: the
phase arrival offsets read from the auxiliary data (one per configured
phase, in phase order, lines 74-76), the `REFTIME` reference time, the
shared sampling rate (`stream[0].stats.sampling_rate`, line 101) and the
three component traces selected as R, T, Z (line 111). -/
structure WaveRecord where
  arrivals : List ℚ
  ref_time : ℚ
  sampling_rate : ℚ
  traces : Fin 3 → Trace

/-- The tensors stored for one key (lines 143-146), plus the
instrumentation log of obspy calls per component. -/
structure Prepared where
  res : List (List ℚ)
  left_res : List (List ℚ)
  right_res : List (List ℚ)
  label : List ℤ
  logs : List (List Op)
deriving DecidableEq

/-- Method `add_data` (lines 71-146) for one waveform key: resolve the windows,
allocate rows of `int(sampling_rate*win_length)` samples, process the
three components fail-fast, and compute the integer labels
`round(offset*sampling_rate)` from the shifted arrival offsets. -/
def addData (env : SignalEnv) (cfg : DataConfig) (rec : WaveRecord) :
    Except PrepError Prepared :=
  if rec.arrivals = [] then .error .emptyArrivals
  else if pyInt (rec.sampling_rate * cfg.win_length) < 0 then .error .badLength
  else
    match processComponent env cfg (pyInt (rec.sampling_rate * cfg.win_length)).toNat
            (rec.traces 0) (absWindows cfg rec.ref_time rec.arrivals),
          processComponent env cfg (pyInt (rec.sampling_rate * cfg.win_length)).toNat
            (rec.traces 1) (absWindows cfg rec.ref_time rec.arrivals),
          processComponent env cfg (pyInt (rec.sampling_rate * cfg.win_length)).toNat
            (rec.traces 2) (absWindows cfg rec.ref_time rec.arrivals) with
    | (.ok c0, g0), (.ok c1, g1), (.ok c2, g2) =>
      .ok { res := [c0.res, c1.res, c2.res]
            left_res := [c0.left_res, c1.left_res, c2.left_res]
            right_res := [c0.right_res, c1.right_res, c2.right_res]
            label := (resolveWindows cfg rec.arrivals).arrival_times.map
              (fun item => pyRound (item * rec.sampling_rate))
            logs := [g0, g1, g2] }
    | (.error e, _), _, _ => .error e
    | (.ok _, _), (.error e, _), _ => .error e
    | (.ok _, _), (.ok _, _), (.error e, _) => .error e

/-- In-memory state of a `WaveFormDataset`: the ordered key list and the
four key-indexed mappings (lines 44-49), as association lists. -/
structure DState where
  wave_keys : List String
  data : List (String × List (List ℚ))
  left_data : List (String × List (List ℚ))
  right_data : List (String × List (List ℚ))
  label : List (String × List ℤ)
deriving DecidableEq

/-- The state set up at lines 44-49 before any branch runs. -/
def emptyState : DState := ⟨[], [], [], [], []⟩

/-- The dict serialized by `save` (lines 175-181). -/
structure SavedBlob where
  wave_keys : List String
  data : List (String × List (List ℚ))
  left_data : List (String × List (List ℚ))
  right_data : List (String × List (List ℚ))
  label : List (String × List ℤ)
deriving DecidableEq

/-- Method `save` (lines 173-182): the five fields, bundled into one blob. -/
def save (s : DState) : SavedBlob :=
  ⟨s.wave_keys, s.data, s.left_data, s.right_data, s.label⟩

/-- Method `load` (lines 184-191): all five fields are overwritten from the blob. -/
def load (b : SavedBlob) : DState :=
  ⟨b.wave_keys, b.data, b.left_data, b.right_data, b.label⟩

/-- The file system as a partial map from paths to serialized blobs. -/
abbrev FS := List (String × SavedBlob)

/-- Line 42: `cache_path = asdf_file_path + ".pt"`. -/
def cachePathFor (asdf_file_path : String) : String := asdf_file_path ++ ".pt"

/-- Lines 57-61: `wave_keys = ds.waveforms.list()` is set up front, then
`add_data` runs per key, fail-fast, accumulating the four mappings. -/
def prepareAll (env : SignalEnv) (cfg : DataConfig)
    (archive : List (String × WaveRecord)) : Except PrepError DState :=
  archive.foldlM
    (fun st kv => do
      let p ← addData env cfg kv.2
      pure { st with
              data := st.data ++ [(kv.1, p.res)]
              left_data := st.left_data ++ [(kv.1, p.left_res)]
              right_data := st.right_data ++ [(kv.1, p.right_res)]
              label := st.label ++ [(kv.1, p.label)] })
    { emptyState with wave_keys := archive.map Prod.fst }

/-- Constructor branch with `prepare=True` (lines 51-63): if the cache
file already exists the constructor returns at once, leaving the state
empty and the file system untouched; otherwise every key is extracted
and the blob is written at the cache path. -/
def initPrepare (env : SignalEnv) (cfg : DataConfig) (fs : FS)
    (asdf_file_path : String) (archive : List (String × WaveRecord)) :
    Except PrepError (DState × FS) :=
  match fs.lookup (cachePathFor asdf_file_path) with
  | some _ => .ok (emptyState, fs)
  | none =>
    match prepareAll env cfg archive with
    | .error e => .error e
    | .ok st => .ok (st, (cachePathFor asdf_file_path, save st) :: fs)

/-- Constructor branch with `prepare=False` (lines 65-69): missing cache
file raises; otherwise the blob is loaded wholesale. -/
def initLoad (fs : FS) (asdf_file_path : String) : Except PrepError DState :=
  match fs.lookup (cachePathFor asdf_file_path) with
  | none => .error .insufficient
  | some b => .ok (load b)

/-- Method `__len__` (lines 148-149): `len(self.data)`. -/
def dsLen (s : DState) : ℕ := s.data.length

/-- The consumer-facing sample dict of lines 154-160. -/
structure Sample where
  data : List (List ℚ)
  left_data : List (List ℚ)
  right_data : List (List ℚ)
  arrivals : List ℤ
  key : String
deriving DecidableEq

/-- Lines 153-162: resolve `idx` to a key, build the base sample dict and
apply the optional `transform`; `none` models the IndexError / KeyError
paths. -/
def baseSample (transform : Option (Sample → Sample)) (s : DState) (idx : ℕ) :
    Option Sample := do
  let key ← s.wave_keys.get? idx
  let d ← s.data.lookup key
  let l ← s.left_data.lookup key
  let r ← s.right_data.lookup key
  let lab ← s.label.lookup key
  let sample : Sample := ⟨d, l, r, lab, key⟩
  pure (match transform with
        | some f => f sample
        | none => sample)

/-- Method `__getitem__` (lines 151-171).  `draws` is the stream of values that
`torch.randint` produces and `r` the value of `torch.rand(1).item()`;
the resampling `while` loop takes the first draw different from `idx`
(`none` models the never-terminating loop on a degenerate stream), and
the recursive call with `stack_main=False` is exactly `baseSample` at
the drawn index, inlined here. -/
def getitem (transform : Option (Sample → Sample))
    (stack_transform : Option (Sample → Sample → Sample))
    (cfg : DataConfig) (s : DState) (draws : List ℕ) (r : ℚ)
    (idx : ℕ) (stack_main : Bool) : Option Sample :=
  match baseSample transform s idx with
  | none => none
  | some sample =>
    if stack_main then
      match stack_transform with
      | none => some sample
      | some stk =>
        match draws.find? (fun k => k != idx) with
        | none => none
        | some random_idx =>
          match baseSample transform s random_idx with
          | none => none
          | some random_sample =>
            if r ≤ cfg.stack_ratio_v then some (stk sample random_sample)
            else some sample
    else some sample

/-- The main-window slice taken for component `i` of a record, after
conditioning (line 122). -/
def mainSlice (env : SignalEnv) (cfg : DataConfig) (rec : WaveRecord) (i : Fin 3) : List ℚ :=
  env.slice (absWindows cfg rec.ref_time rec.arrivals).start
    (absWindows cfg rec.ref_time rec.arrivals).end_
    (conditioned env cfg (rec.traces i))

/-- The left-window slice taken for component `i` (lines 123-124). -/
def leftSlice (env : SignalEnv) (cfg : DataConfig) (rec : WaveRecord) (i : Fin 3) : List ℚ :=
  env.slice (absWindows cfg rec.ref_time rec.arrivals).left_signal_start
    (absWindows cfg rec.ref_time rec.arrivals).left_signal_end
    (conditioned env cfg (rec.traces i))

/-- The right-window slice taken for component `i` (lines 125-126). -/
def rightSlice (env : SignalEnv) (cfg : DataConfig) (rec : WaveRecord) (i : Fin 3) : List ℚ :=
  env.slice (absWindows cfg rec.ref_time rec.arrivals).right_signal_start
    (absWindows cfg rec.ref_time rec.arrivals).right_signal_end
    (conditioned env cfg (rec.traces i))

/-- Unfolding lemma for the main-window start bound. -/
theorem resolveWindows_start (cfg : DataConfig) (arrival_times : List ℚ) :
    (resolveWindows cfg arrival_times).start =
      if listMin arrival_times - cfg.left_extend < 0 then 0
      else listMin arrival_times - cfg.left_extend := rfl

/-- Unfolding lemma for the main-window end bound. -/
theorem resolveWindows_end (cfg : DataConfig) (arrival_times : List ℚ) :
    (resolveWindows cfg arrival_times).end_ =
      if listMin arrival_times - cfg.left_extend < 0 then
        listMin arrival_times + cfg.right_extend + -(listMin arrival_times - cfg.left_extend)
      else listMin arrival_times + cfg.right_extend := rfl

/-- Unfolding lemma for the recomputed arrival offsets. -/
theorem resolveWindows_arrivals (cfg : DataConfig) (arrival_times : List ℚ) :
    (resolveWindows cfg arrival_times).arrival_times =
      arrival_times.map (fun item => item - (resolveWindows cfg arrival_times).start) := rfl

/-- A left fold of `min` is bounded by its initial value. -/
theorem foldl_min_le_init (t : List ℚ) (a : ℚ) : t.foldl min a ≤ a := by
  induction t generalizing a with
  | nil => exact le_refl a
  | cons b t ih => exact le_trans (ih (min a b)) (min_le_left a b)

/-- A left fold of `min` is bounded by every list element. -/
theorem foldl_min_le_mem (t : List ℚ) (a : ℚ) : ∀ x ∈ t, t.foldl min a ≤ x := by
  induction t generalizing a with
  | nil => intro x hx; cases hx
  | cons b t ih =>
    intro x hx
    rcases List.mem_cons.mp hx with rfl | hx
    · exact le_trans (foldl_min_le_init t (min a x)) (min_le_right a x)
    · exact ih (min a b) x hx

/-- The value of `listMin` is a lower bound of the list. -/
theorem listMin_le (l : List ℚ) : ∀ x ∈ l, listMin l ≤ x := by
  cases l with
  | nil => intro x hx; cases hx
  | cons a t =>
    intro x hx
    rcases List.mem_cons.mp hx with rfl | hx
    · exact foldl_min_le_init t x
    · exact foldl_min_le_mem t a x hx

/-- A left fold of `min` is the initial value or a list element. -/
theorem foldl_min_mem (t : List ℚ) (a : ℚ) : t.foldl min a = a ∨ t.foldl min a ∈ t := by
  induction t generalizing a with
  | nil => exact Or.inl rfl
  | cons b t ih =>
    rcases ih (min a b) with h | h
    · rcases min_choice a b with h' | h'
      · exact Or.inl (by rw [List.foldl, h, h'])
      · exact Or.inr (by rw [List.foldl, h, h']; exact List.mem_cons_self b t)
    · exact Or.inr (List.mem_cons_of_mem b h)

/-- On a non-empty list, `listMin` is one of the elements. -/
theorem listMin_mem (l : List ℚ) (h : l ≠ []) : listMin l ∈ l := by
  cases l with
  | nil => exact absurd rfl h
  | cons a t =>
    rcases foldl_min_mem t a with h' | h'
    · rw [listMin, h']; exact List.mem_cons_self a t
    · exact List.mem_cons_of_mem a h'

/-- A successful row assignment yields exactly `L` samples. -/
theorem assignRow_length (L : ℕ) (w t : List ℚ) (h : assignRow L w = some t) :
    t.length = L := by
  unfold assignRow at h
  split at h
  · next hlen => cases h; exact hlen
  · split at h
    · cases h; exact List.length_replicate L _
    · cases h

/-- When the slice is long enough, the row is its right-truncation. -/
theorem assignRow_of_le (L : ℕ) (w : List ℚ) (h : L ≤ w.length) :
    assignRow L w = some (w.take L) := by
  unfold assignRow
  rw [if_pos]
  rw [List.length_take]
  exact Nat.min_eq_left h

/-- A successful left placement yields exactly `L` samples. -/
theorem leftPlace_length (L : ℕ) (w t : List ℚ) (h : leftPlace L w = some t) :
    t.length = L := by
  unfold leftPlace at h
  split at h
  · split at h
    · next hL => cases h; rw [hL]; rfl
    · cases h
  · next h0 =>
    cases h
    have hle : (w.take L).length ≤ L := by
      rw [List.length_take]; exact Nat.min_le_left _ _
    rw [List.length_append, List.length_replicate]
    omega

/-- A successful left placement of a short slice left-pads with zeros. -/
theorem leftPlace_pad (L : ℕ) (w t : List ℚ) (h : leftPlace L w = some t)
    (hlt : w.length < L) : t = List.replicate (L - w.length) 0 ++ w := by
  have htake : w.take L = w := List.take_of_length_le (le_of_lt hlt)
  unfold leftPlace at h
  rw [htake] at h
  split at h
  · next h0 =>
    have hL : ¬ L = 0 := by omega
    rw [if_neg hL] at h; cases h
  · cases h; rfl

/-- A successful left placement of a long slice right-truncates it. -/
theorem leftPlace_trunc (L : ℕ) (w t : List ℚ) (h : leftPlace L w = some t)
    (hge : L ≤ w.length) : t = w.take L := by
  have hlen : (w.take L).length = L := by
    rw [List.length_take]; exact Nat.min_eq_left hge
  unfold leftPlace at h
  split at h
  · next h0 =>
    have hL0 : L = 0 := by omega
    rw [if_pos hL0] at h
    cases h
    rw [hL0, List.take_zero]
  · cases h
    rw [hlen, Nat.sub_self, List.replicate_zero, List.nil_append]

/-- Inversion of a successful `processComponent` run: each row comes from
its placement on the corresponding slice of the conditioned trace, and
the call log is the fixed conditioning-then-slicing sequence. -/
theorem processComponent_ok (env : SignalEnv) (cfg : DataConfig) (L : ℕ) (trace : Trace)
    (w : AbsWindows) (c : CompRows) (g : List Op)
    (h : processComponent env cfg L trace w = (.ok c, g)) :
    assignRow L (env.slice w.start w.end_ (conditioned env cfg trace)) = some c.res ∧
    leftPlace L (env.slice w.left_signal_start w.left_signal_end (conditioned env cfg trace)) =
      some c.left_res ∧
    assignRow L (env.slice w.right_signal_start w.right_signal_end (conditioned env cfg trace)) =
      some c.right_res ∧
    g = condSliceLog cfg w := by
  unfold processComponent at h
  split at h
  · cases h
  · split at h
    · next r l rr heq0 heq1 heq2 =>
      rw [Prod.mk.injEq] at h
      obtain ⟨hok, hg⟩ := h
      cases hok
      exact ⟨heq0, heq1, heq2, hg.symm⟩
    · next heq => cases (Prod.mk.injEq _ _ _ _ ▸ h).1

/-- Inversion of a successful `addData` run: the three components were
processed successfully with the resolved absolute windows and the row
length `int(sampling_rate*win_length)`, and the output fields collect
their rows, labels and call logs. -/
theorem addData_ok (env : SignalEnv) (cfg : DataConfig) (rec : WaveRecord) (p : Prepared)
    (h : addData env cfg rec = .ok p) :
    ∃ c0 g0 c1 g1 c2 g2,
      processComponent env cfg (pyInt (rec.sampling_rate * cfg.win_length)).toNat
        (rec.traces 0) (absWindows cfg rec.ref_time rec.arrivals) = (.ok c0, g0) ∧
      processComponent env cfg (pyInt (rec.sampling_rate * cfg.win_length)).toNat
        (rec.traces 1) (absWindows cfg rec.ref_time rec.arrivals) = (.ok c1, g1) ∧
      processComponent env cfg (pyInt (rec.sampling_rate * cfg.win_length)).toNat
        (rec.traces 2) (absWindows cfg rec.ref_time rec.arrivals) = (.ok c2, g2) ∧
      p.res = [c0.res, c1.res, c2.res] ∧
      p.left_res = [c0.left_res, c1.left_res, c2.left_res] ∧
      p.right_res = [c0.right_res, c1.right_res, c2.right_res] ∧
      p.label = (resolveWindows cfg rec.arrivals).arrival_times.map
        (fun item => pyRound (item * rec.sampling_rate)) ∧
      p.logs = [g0, g1, g2] := by
  unfold addData at h
  split at h
  · cases h
  · split at h
    · cases h
    · split at h
      · next c0 g0 c1 g1 c2 g2 heq0 heq1 heq2 =>
        cases h
        exact ⟨c0, g0, c1, g1, c2, g2, heq0, heq1, heq2, rfl, rfl, rfl, rfl, rfl⟩
      · cases h
      · cases h
      · cases h

/-- Configuration of the spec's example scenario: two phases,
`left_extend=5, right_extend=5, win_length=20`, generic filter values. -/
def cfgW : DataConfig := ⟨["P", "S"], 5, 5, 20, 1/20, 1, 10, 4, false, 1/2⟩

/-- A concrete signal environment: identity conditioning, and a slice
returning the trace's sample list. -/
def envW : SignalEnv :=
  { detrend := fun t => t
    taper := fun _ t => t
    bandpass := fun _ _ _ _ t => t
    slice := fun _ _ t => t.data }

/-- A concrete record realizing the spec's example: phases at offsets 10
and 12 from the reference time, amply covered traces, 1/4 Hz sampling
(so rows hold 5 samples). -/
def recW : WaveRecord := ⟨[10, 12], 0, 1/4, fun _ => ⟨-20, 40, [1, 2, 3, 4, 5]⟩⟩

/-- Fallback value used to name the successful results of concrete runs. -/
def fallbackPrepared : Prepared := ⟨[], [], [], [], []⟩

/-- The prepared example extracted from `recW`. -/
def pW : Prepared :=
  match addData envW cfgW recW with
  | .ok p => p
  | .error _ => fallbackPrepared

/-- Evaluation of `listMin` on a two-element list: the binary minimum. -/
theorem listMin_pair (a b : ℚ) : listMin [a, b] = min a b := rfl

/-- Concrete evaluation of `listMin` on the example arrivals. -/
theorem listMinW : listMin [(10 : ℚ), 12] = 10 := by
  rw [listMin_pair]; exact min_eq_left (by norm_num)

/-- Concrete evaluation of `listMin` on the spread-out arrivals. -/
theorem listMinW2 : listMin [(10 : ℚ), 20] = 10 := by
  rw [listMin_pair]; exact min_eq_left (by norm_num)

/-- The example windows are not clamped. -/
theorem hcW : ¬ (listMin [(10 : ℚ), 12] - cfgW.left_extend < 0) := by
  rw [listMinW]; norm_num [cfgW]

/-- Main-window start of the example scenario. -/
theorem startW : (resolveWindows cfgW [10, 12]).start = 5 := by
  rw [resolveWindows_start, if_neg hcW, listMinW]; norm_num [cfgW]

/-- Main-window end of the example scenario. -/
theorem endW : (resolveWindows cfgW [10, 12]).end_ = 15 := by
  rw [resolveWindows_end, if_neg hcW, listMinW]; norm_num [cfgW]

/-- Main-window end with arrivals at offsets 10 and 20. -/
theorem endW2 : (resolveWindows cfgW [10, 20]).end_ = 15 := by
  have hc : ¬ (listMin [(10 : ℚ), 20] - cfgW.left_extend < 0) := by
    rw [listMinW2]; norm_num [cfgW]
  rw [resolveWindows_end, if_neg hc, listMinW2]; norm_num [cfgW]

/-- Claim C1, counterexample: the code computes the main-window end from
`min(arrivals)`, not `max`.  On the spec's own example (arrivals 10 and
12, `left_extend=5, right_extend=5`) the resolved main window is
`[5, 15]`, not the claimed `[5, 17]`; and with arrivals 10 and 20 the
arrival at 20 lies outside the resolved main window. -/
theorem claim1_counterexample :
    (resolveWindows cfgW [10, 12]).start = 5 ∧
    (resolveWindows cfgW [10, 12]).end_ = 15 ∧
    (resolveWindows cfgW [10, 12]).end_ ≠ 17 ∧
    ¬ ((20 : ℚ) ≤ (resolveWindows cfgW [10, 20]).end_) := by
  refine ⟨startW, endW, ?_, ?_⟩
  · rw [endW]; norm_num
  · rw [endW2]; norm_num

/-- Claim C1 (amended): for a non-empty `ArrivalSet` with a non-negative
`left_extend`, non-negative arrival offsets and every arrival at most
`min(arrivals) + right_extend` (the code derives the window end from the
earliest arrival), every arrival lies inside the resolved main window. -/
theorem claim1_window_contains_arrivals (cfg : DataConfig) (arrivals : List ℚ)
    (_hne : arrivals ≠ [])
    (hle : 0 ≤ cfg.left_extend)
    (hnn : ∀ a ∈ arrivals, 0 ≤ a)
    (hub : ∀ a ∈ arrivals, a ≤ listMin arrivals + cfg.right_extend) :
    ∀ a ∈ arrivals,
      (resolveWindows cfg arrivals).start ≤ a ∧ a ≤ (resolveWindows cfg arrivals).end_ := by
  intro a ha
  have hmin := listMin_le arrivals a ha
  have hu := hub a ha
  rw [resolveWindows_start, resolveWindows_end]
  by_cases hc : listMin arrivals - cfg.left_extend < 0
  · rw [if_pos hc, if_pos hc]
    exact ⟨hnn a ha, by linarith⟩
  · rw [if_neg hc, if_neg hc]
    exact ⟨by linarith, hu⟩

/-- Claim C1, witness: on the spec's example the arrival at offset 10
lies in the resolved main window. -/
theorem claim1_witness :
    (resolveWindows cfgW [10, 12]).start ≤ 10 ∧ 10 ≤ (resolveWindows cfgW [10, 12]).end_ :=
  claim1_window_contains_arrivals cfgW [10, 12] (by simp) (by norm_num [cfgW])
    (by intro a ha; simp at ha; rcases ha with rfl | rfl <;> norm_num)
    (by intro a ha; rw [listMinW]; simp at ha; rcases ha with rfl | rfl <;> norm_num [cfgW])
    10 (by simp)

/-- Claim C2: when `min(arrivals) - left_extend` is non-negative it is
the main-window start (and the end is `min(arrivals) + right_extend`);
when it is negative both bounds are shifted by its negation, so the
start is 0 and the window duration is `left_extend + right_extend`
exactly; in all cases the arrival offsets are recomputed relative to the
(possibly shifted) start. -/
theorem claim2_clamp_policy (cfg : DataConfig) (arrivals : List ℚ) (_hne : arrivals ≠ []) :
    (0 ≤ listMin arrivals - cfg.left_extend →
      (resolveWindows cfg arrivals).start = listMin arrivals - cfg.left_extend ∧
      (resolveWindows cfg arrivals).end_ = listMin arrivals + cfg.right_extend) ∧
    (listMin arrivals - cfg.left_extend < 0 →
      (resolveWindows cfg arrivals).start = 0 ∧
      (resolveWindows cfg arrivals).end_ - (resolveWindows cfg arrivals).start =
        cfg.left_extend + cfg.right_extend) ∧
    (resolveWindows cfg arrivals).arrival_times =
      arrivals.map (fun item => item - (resolveWindows cfg arrivals).start) := by
  refine ⟨?_, ?_, resolveWindows_arrivals cfg arrivals⟩
  · intro h
    rw [resolveWindows_start, resolveWindows_end, if_neg (not_lt.mpr h), if_neg (not_lt.mpr h)]
    exact ⟨rfl, rfl⟩
  · intro h
    rw [resolveWindows_start, resolveWindows_end, if_pos h, if_pos h]
    exact ⟨rfl, by ring⟩

/-- Claim C2, witness: on the spec's example the start is exactly
`min(arrivals) - left_extend`. -/
theorem claim2_witness :
    (resolveWindows cfgW [10, 12]).start = listMin [10, 12] - cfgW.left_extend :=
  ((claim2_clamp_policy cfgW [10, 12] (by simp)).1
    (by rw [listMinW]; norm_num [cfgW])).1

/-- The placement `leftPlace` succeeds whenever the row is empty or the slice is not. -/
theorem leftPlace_some (L : ℕ) (w : List ℚ) (h : L = 0 ∨ w ≠ []) :
    ∃ t, leftPlace L w = some t := by
  unfold leftPlace
  by_cases h0 : (w.take L).length = 0
  · have hL : L = 0 := by
      rcases h with hL | hw
      · exact hL
      · cases L with
        | zero => rfl
        | succ n =>
          cases w with
          | nil => exact absurd rfl hw
          | cons a t => simp [List.take] at h0
    exact ⟨[], by rw [if_pos h0, if_pos hL]⟩
  · exact ⟨_, by rw [if_neg h0]⟩

/-- The extraction `processComponent` succeeds when the coverage check passes, the main
and right slices hold at least `L` samples and the left slice is
non-empty (or `L` is zero). -/
theorem processComponent_some (env : SignalEnv) (cfg : DataConfig) (L : ℕ) (trace : Trace)
    (w : AbsWindows)
    (hcond : ¬ (w.start < trace.starttime ∨ trace.endtime < w.end_ ∨
      trace.endtime - cfg.win_length < w.end_))
    (hm : L ≤ (env.slice w.start w.end_ (conditioned env cfg trace)).length)
    (hl : L = 0 ∨ env.slice w.left_signal_start w.left_signal_end (conditioned env cfg trace) ≠ [])
    (hr : L ≤ (env.slice w.right_signal_start w.right_signal_end (conditioned env cfg trace)).length) :
    ∃ c, processComponent env cfg L trace w = (.ok c, condSliceLog cfg w) := by
  obtain ⟨t, ht⟩ := leftPlace_some L
    (env.slice w.left_signal_start w.left_signal_end (conditioned env cfg trace)) hl
  refine ⟨⟨(env.slice w.start w.end_ (conditioned env cfg trace)).take L, t,
    (env.slice w.right_signal_start w.right_signal_end (conditioned env cfg trace)).take L⟩, ?_⟩
  unfold processComponent
  rw [if_neg hcond, assignRow_of_le _ _ hm, assignRow_of_le _ _ hr, ht]

/-- The extraction `addData` succeeds when the arrivals are non-empty, the row length is
non-negative and every component passes the coverage check with
sufficiently long slices. -/
theorem addData_some (env : SignalEnv) (cfg : DataConfig) (rec : WaveRecord)
    (hne : ¬ rec.arrivals = [])
    (hLnn : ¬ pyInt (rec.sampling_rate * cfg.win_length) < 0)
    (hcond : ∀ i : Fin 3,
      ¬ ((absWindows cfg rec.ref_time rec.arrivals).start < (rec.traces i).starttime ∨
        (rec.traces i).endtime < (absWindows cfg rec.ref_time rec.arrivals).end_ ∨
        (rec.traces i).endtime - cfg.win_length < (absWindows cfg rec.ref_time rec.arrivals).end_))
    (hm : ∀ i : Fin 3,
      (pyInt (rec.sampling_rate * cfg.win_length)).toNat ≤ (mainSlice env cfg rec i).length)
    (hl : ∀ i : Fin 3,
      (pyInt (rec.sampling_rate * cfg.win_length)).toNat = 0 ∨ leftSlice env cfg rec i ≠ [])
    (hr : ∀ i : Fin 3,
      (pyInt (rec.sampling_rate * cfg.win_length)).toNat ≤ (rightSlice env cfg rec i).length) :
    ∃ p, addData env cfg rec = .ok p := by
  obtain ⟨c0, h0⟩ := processComponent_some env cfg
    (pyInt (rec.sampling_rate * cfg.win_length)).toNat (rec.traces 0)
    (absWindows cfg rec.ref_time rec.arrivals) (hcond 0) (hm 0) (hl 0) (hr 0)
  obtain ⟨c1, h1⟩ := processComponent_some env cfg
    (pyInt (rec.sampling_rate * cfg.win_length)).toNat (rec.traces 1)
    (absWindows cfg rec.ref_time rec.arrivals) (hcond 1) (hm 1) (hl 1) (hr 1)
  obtain ⟨c2, h2⟩ := processComponent_some env cfg
    (pyInt (rec.sampling_rate * cfg.win_length)).toNat (rec.traces 2)
    (absWindows cfg rec.ref_time rec.arrivals) (hcond 2) (hm 2) (hl 2) (hr 2)
  refine ⟨{ res := [c0.res, c1.res, c2.res]
            left_res := [c0.left_res, c1.left_res, c2.left_res]
            right_res := [c0.right_res, c1.right_res, c2.right_res]
            label := (resolveWindows cfg rec.arrivals).arrival_times.map
              (fun item => pyRound (item * rec.sampling_rate))
            logs := [condSliceLog cfg (absWindows cfg rec.ref_time rec.arrivals),
                     condSliceLog cfg (absWindows cfg rec.ref_time rec.arrivals),
                     condSliceLog cfg (absWindows cfg rec.ref_time rec.arrivals)] }, ?_⟩
  unfold addData
  rw [if_neg hne, if_neg hLnn, h0, h1, h2]

/-- Row length of the example scenario:
`int(sampling_rate * win_length) = int(5) = 5`. -/
theorem pyIntW : pyInt (recW.sampling_rate * cfgW.win_length) = 5 := by
  have : recW.sampling_rate * cfgW.win_length = 5 := by norm_num [recW, cfgW]
  rw [this, pyInt, if_pos (by norm_num)]
  norm_num

/-- The example record prepares successfully to `pW`. -/
theorem addData_envW : addData envW cfgW recW = .ok pW := by
  have habs : absWindows cfgW recW.ref_time recW.arrivals =
      ⟨5, 15, -15, 5, 15, 35⟩ := by
    have h1 : (resolveWindows cfgW [10, 12]).left_signal_start =
        (resolveWindows cfgW [10, 12]).start - cfgW.win_length := rfl
    have h2 : (resolveWindows cfgW [10, 12]).left_signal_end =
        (resolveWindows cfgW [10, 12]).start := rfl
    have h3 : (resolveWindows cfgW [10, 12]).right_signal_start =
        (resolveWindows cfgW [10, 12]).end_ := rfl
    have h4 : (resolveWindows cfgW [10, 12]).right_signal_end =
        (resolveWindows cfgW [10, 12]).end_ + cfgW.win_length := rfl
    show AbsWindows.mk _ _ _ _ _ _ = _
    rw [AbsWindows.mk.injEq]
    refine ⟨?_, ?_, ?_, ?_, ?_, ?_⟩ <;>
      simp only [recW, h1, h2, h3, h4, startW, endW] <;> norm_num [cfgW]
  obtain ⟨p, hp⟩ := addData_some envW cfgW recW (by simp [recW])
    (by rw [pyIntW]; norm_num)
    (by intro i; rw [habs]; simp only [recW]; push_neg; norm_num [cfgW])
    (by intro i; rw [pyIntW]; simp [mainSlice, envW, conditioned, recW])
    (by intro i; right; simp [leftSlice, envW, conditioned, recW])
    (by intro i; rw [pyIntW]; simp [rightSlice, envW, conditioned, recW])
  unfold pW
  rw [hp]

/-- Claim C3 (amended): for a successfully prepared key all three tensors
have 3 rows of exactly `L` samples where `L = int(sampling_rate *
win_length)` — Python truncation, not `round` — and whenever the raw
main-window slice holds at least `L` samples the stored main row is its
right-truncation at `L`. -/
theorem claim3_shapes (env : SignalEnv) (cfg : DataConfig) (rec : WaveRecord) (p : Prepared)
    (h : addData env cfg rec = .ok p) :
    p.res.length = 3 ∧ p.left_res.length = 3 ∧ p.right_res.length = 3 ∧
    (∀ row ∈ p.res, row.length = (pyInt (rec.sampling_rate * cfg.win_length)).toNat) ∧
    (∀ row ∈ p.left_res, row.length = (pyInt (rec.sampling_rate * cfg.win_length)).toNat) ∧
    (∀ row ∈ p.right_res, row.length = (pyInt (rec.sampling_rate * cfg.win_length)).toNat) ∧
    (∀ i : Fin 3,
      (pyInt (rec.sampling_rate * cfg.win_length)).toNat ≤ (mainSlice env cfg rec i).length →
      p.res.get? i.val = some ((mainSlice env cfg rec i).take
        (pyInt (rec.sampling_rate * cfg.win_length)).toNat)) := by
  obtain ⟨c0, g0, c1, g1, c2, g2, h0, h1, h2, hres, hleft, hright, hlab, hlogs⟩ :=
    addData_ok env cfg rec p h
  obtain ⟨m0, l0, r0, -⟩ := processComponent_ok _ _ _ _ _ _ _ h0
  obtain ⟨m1, l1, r1, -⟩ := processComponent_ok _ _ _ _ _ _ _ h1
  obtain ⟨m2, l2, r2, -⟩ := processComponent_ok _ _ _ _ _ _ _ h2
  refine ⟨by rw [hres]; rfl, by rw [hleft]; rfl, by rw [hright]; rfl, ?_, ?_, ?_, ?_⟩
  · intro row hrow
    rw [hres] at hrow
    simp only [List.mem_cons, List.not_mem_nil, or_false] at hrow
    rcases hrow with rfl | rfl | rfl
    · exact assignRow_length _ _ _ m0
    · exact assignRow_length _ _ _ m1
    · exact assignRow_length _ _ _ m2
  · intro row hrow
    rw [hleft] at hrow
    simp only [List.mem_cons, List.not_mem_nil, or_false] at hrow
    rcases hrow with rfl | rfl | rfl
    · exact leftPlace_length _ _ _ l0
    · exact leftPlace_length _ _ _ l1
    · exact leftPlace_length _ _ _ l2
  · intro row hrow
    rw [hright] at hrow
    simp only [List.mem_cons, List.not_mem_nil, or_false] at hrow
    rcases hrow with rfl | rfl | rfl
    · exact assignRow_length _ _ _ r0
    · exact assignRow_length _ _ _ r1
    · exact assignRow_length _ _ _ r2
  · intro i hle
    fin_cases i
    · rw [hres]; exact m0.symm.trans (assignRow_of_le _ _ hle)
    · rw [hres]; exact m1.symm.trans (assignRow_of_le _ _ hle)
    · rw [hres]; exact m2.symm.trans (assignRow_of_le _ _ hle)

/-- Claim C3, witness: the example record prepares to 3 main rows. -/
theorem claim3_witness : pW.res.length = 3 :=
  (claim3_shapes envW cfgW recW pW addData_envW).1

/-- Configuration whose `sampling_rate * win_length` has a fractional
part: `win_length = 1` second. -/
def cfgC3 : DataConfig := ⟨["P"], 5, 5, 1, 1/20, 1, 10, 4, false, 1/2⟩

/-- A record sampled at 1.9 Hz, so `sampling_rate * win_length = 1.9`. -/
def recC3 : WaveRecord := ⟨[10], 0, 19/10, fun _ => ⟨-20, 40, [1]⟩⟩

/-- The prepared example extracted from `recC3`. -/
def pC3 : Prepared :=
  match addData envW cfgC3 recC3 with
  | .ok p => p
  | .error _ => fallbackPrepared

/-- Evaluation of `listMin` on a singleton list. -/
theorem listMin_single (a : ℚ) : listMin [a] = a := rfl

/-- Row length of the fractional scenario: `int(1.9) = 1`. -/
theorem pyIntC3 : pyInt (recC3.sampling_rate * cfgC3.win_length) = 1 := by
  have h : recC3.sampling_rate * cfgC3.win_length = 19/10 := by norm_num [recC3, cfgC3]
  rw [h, pyInt, if_pos (by norm_num)]
  exact Int.floor_eq_iff.mpr (by norm_num)

/-- The spec-side row length of the fractional scenario: `round(1.9) = 2`. -/
theorem pyRoundC3 : pyRound (recC3.sampling_rate * cfgC3.win_length) = 2 := by
  have h : recC3.sampling_rate * cfgC3.win_length = 19/10 := by norm_num [recC3, cfgC3]
  have hf : ⌊(19/10 : ℚ)⌋ = 1 := Int.floor_eq_iff.mpr (by norm_num)
  rw [h, pyRound, hf, if_neg (by norm_num), if_pos (by norm_num)]
  norm_num

/-- The clamp does not trigger in the fractional scenario. -/
theorem hcC3 : ¬ (listMin [(10 : ℚ)] - cfgC3.left_extend < 0) := by
  rw [listMin_single]; norm_num [cfgC3]

/-- The fractional-scenario record prepares successfully to `pC3`. -/
theorem addData_envC3 : addData envW cfgC3 recC3 = .ok pC3 := by
  have hs : (resolveWindows cfgC3 [10]).start = 5 := by
    rw [resolveWindows_start, if_neg hcC3, listMin_single]; norm_num [cfgC3]
  have he : (resolveWindows cfgC3 [10]).end_ = 15 := by
    rw [resolveWindows_end, if_neg hcC3, listMin_single]; norm_num [cfgC3]
  have habs : absWindows cfgC3 recC3.ref_time recC3.arrivals = ⟨5, 15, 4, 5, 15, 16⟩ := by
    have h1 : (resolveWindows cfgC3 [10]).left_signal_start =
        (resolveWindows cfgC3 [10]).start - cfgC3.win_length := rfl
    have h2 : (resolveWindows cfgC3 [10]).left_signal_end =
        (resolveWindows cfgC3 [10]).start := rfl
    have h3 : (resolveWindows cfgC3 [10]).right_signal_start =
        (resolveWindows cfgC3 [10]).end_ := rfl
    have h4 : (resolveWindows cfgC3 [10]).right_signal_end =
        (resolveWindows cfgC3 [10]).end_ + cfgC3.win_length := rfl
    show AbsWindows.mk _ _ _ _ _ _ = _
    rw [AbsWindows.mk.injEq]
    refine ⟨?_, ?_, ?_, ?_, ?_, ?_⟩ <;>
      simp only [recC3, h1, h2, h3, h4, hs, he] <;> norm_num [cfgC3]
  obtain ⟨p, hp⟩ := addData_some envW cfgC3 recC3 (by simp [recC3])
    (by rw [pyIntC3]; norm_num)
    (by intro i; rw [habs]; simp only [recC3]; push_neg; norm_num [cfgC3])
    (by intro i; rw [pyIntC3]; simp [mainSlice, envW, conditioned, recC3])
    (by intro i; right; simp [leftSlice, envW, conditioned, recC3])
    (by intro i; rw [pyIntC3]; simp [rightSlice, envW, conditioned, recC3])
  unfold pC3
  rw [hp]

/-- Claim C3, counterexample: a record sampled at 1.9 Hz with a 1-second
window prepares successfully with rows of `int(1.9) = 1` sample, while
the spec's formula `round(sampling_rate * win_length)` gives 2: the row
length is `int(...)`, not `round(...)`. -/
theorem claim3_counterexample :
    addData envW cfgC3 recC3 = .ok pC3 ∧
    pC3.res.map List.length = [1, 1, 1] ∧
    pyRound (recC3.sampling_rate * cfgC3.win_length) = 2 := by
  refine ⟨addData_envC3, ?_, pyRoundC3⟩
  obtain ⟨c0, g0, c1, g1, c2, g2, h0, h1, h2, hres, -, -, -, -⟩ :=
    addData_ok envW cfgC3 recC3 pC3 addData_envC3
  obtain ⟨m0, -, -, -⟩ := processComponent_ok _ _ _ _ _ _ _ h0
  obtain ⟨m1, -, -, -⟩ := processComponent_ok _ _ _ _ _ _ _ h1
  obtain ⟨m2, -, -, -⟩ := processComponent_ok _ _ _ _ _ _ _ h2
  have e0 := assignRow_length _ _ _ m0
  have e1 := assignRow_length _ _ _ m1
  have e2 := assignRow_length _ _ _ m2
  rw [pyIntC3] at e0 e1 e2
  rw [hres]
  simp [e0, e1, e2]

/-- Claim C4: for any component, `processComponent` reports insufficient
data exactly when the raw trace bounds fail the line-112 check — the main
window is not fully covered or the trace ends less than `win_length`
after the main-window end — and on that failure no obspy call (detrend,
taper, filter or slice) has been performed. -/
theorem claim4_insufficient_check (env : SignalEnv) (cfg : DataConfig) (L : ℕ)
    (trace : Trace) (w : AbsWindows) :
    ((processComponent env cfg L trace w).1 = .error .insufficient ↔
      (w.start < trace.starttime ∨ trace.endtime < w.end_ ∨
        trace.endtime - cfg.win_length < w.end_)) ∧
    ((w.start < trace.starttime ∨ trace.endtime < w.end_ ∨
        trace.endtime - cfg.win_length < w.end_) →
      (processComponent env cfg L trace w).2 = []) := by
  unfold processComponent
  split
  · next hcond => exact ⟨⟨fun _ => hcond, fun _ => rfl⟩, fun _ => rfl⟩
  · next hcond =>
    refine ⟨⟨fun habs => ?_, fun hc => absurd hc hcond⟩, fun hc => absurd hc hcond⟩
    split at habs <;> simp_all

/-- A trace ending before the requested main window. -/
def trcBad : Trace := ⟨0, 10, []⟩

/-- Absolute windows requesting coverage up to 35. -/
def wBad : AbsWindows := ⟨5, 15, -15, 5, 15, 35⟩

/-- Claim C4, witness: a trace ending at 10 fails the check for a main
window ending at 15, and no obspy call is logged. -/
theorem claim4_witness : (processComponent envW cfgW 5 trcBad wBad).2 = [] :=
  (claim4_insufficient_check envW cfgW 5 trcBad wBad).2
    (Or.inr (Or.inl (by norm_num [trcBad, wBad])))

/-- Claim C5: for every component of a successfully prepared key, a left
slice shorter than `L` is right-aligned after `L - len` leading zeros,
and a left slice of at least `L` samples is right-truncated at `L`. -/
theorem claim5_left_window (env : SignalEnv) (cfg : DataConfig) (rec : WaveRecord)
    (p : Prepared) (h : addData env cfg rec = .ok p) :
    ∀ i : Fin 3,
      ((leftSlice env cfg rec i).length < (pyInt (rec.sampling_rate * cfg.win_length)).toNat →
        p.left_res.get? i.val = some (List.replicate
          ((pyInt (rec.sampling_rate * cfg.win_length)).toNat -
            (leftSlice env cfg rec i).length) 0 ++ leftSlice env cfg rec i)) ∧
      ((pyInt (rec.sampling_rate * cfg.win_length)).toNat ≤ (leftSlice env cfg rec i).length →
        p.left_res.get? i.val = some ((leftSlice env cfg rec i).take
          (pyInt (rec.sampling_rate * cfg.win_length)).toNat)) := by
  obtain ⟨c0, g0, c1, g1, c2, g2, h0, h1, h2, hres, hleft, hright, hlab, hlogs⟩ :=
    addData_ok env cfg rec p h
  obtain ⟨-, l0, -, -⟩ := processComponent_ok _ _ _ _ _ _ _ h0
  obtain ⟨-, l1, -, -⟩ := processComponent_ok _ _ _ _ _ _ _ h1
  obtain ⟨-, l2, -, -⟩ := processComponent_ok _ _ _ _ _ _ _ h2
  intro i
  fin_cases i
  · exact ⟨fun hlt => by rw [hleft]; exact congrArg some (leftPlace_pad _ _ _ l0 hlt),
      fun hge => by rw [hleft]; exact congrArg some (leftPlace_trunc _ _ _ l0 hge)⟩
  · exact ⟨fun hlt => by rw [hleft]; exact congrArg some (leftPlace_pad _ _ _ l1 hlt),
      fun hge => by rw [hleft]; exact congrArg some (leftPlace_trunc _ _ _ l1 hge)⟩
  · exact ⟨fun hlt => by rw [hleft]; exact congrArg some (leftPlace_pad _ _ _ l2 hlt),
      fun hge => by rw [hleft]; exact congrArg some (leftPlace_trunc _ _ _ l2 hge)⟩

/-- Claim C5, witness: on the example record the left slice has exactly
`L = 5` samples, so the stored left row is its truncation. -/
theorem claim5_witness :
    pW.left_res.get? 0 = some ((leftSlice envW cfgW recW 0).take 5) := by
  have h := (claim5_left_window envW cfgW recW pW addData_envW 0).2
  have hlen : (pyInt (recW.sampling_rate * cfgW.win_length)).toNat = 5 := by
    rw [pyIntW]; rfl
  rw [hlen] at h
  exact h (by simp [leftSlice, envW, conditioned, recW])

/-- Claim C9: for every component of a successfully prepared key, the
obspy calls happen in the fixed order detrend, taper (with the configured
max percentage), bandpass filter (with the configured band, corners and
zero-phase flag), and only then the three window slices. -/
theorem claim9_conditioning_order (env : SignalEnv) (cfg : DataConfig) (rec : WaveRecord)
    (p : Prepared) (h : addData env cfg rec = .ok p) :
    p.logs = List.replicate 3 (condSliceLog cfg (absWindows cfg rec.ref_time rec.arrivals)) := by
  obtain ⟨c0, g0, c1, g1, c2, g2, h0, h1, h2, -, -, -, -, hlogs⟩ := addData_ok env cfg rec p h
  obtain ⟨-, -, -, hg0⟩ := processComponent_ok _ _ _ _ _ _ _ h0
  obtain ⟨-, -, -, hg1⟩ := processComponent_ok _ _ _ _ _ _ _ h1
  obtain ⟨-, -, -, hg2⟩ := processComponent_ok _ _ _ _ _ _ _ h2
  rw [hlogs, hg0, hg1, hg2]
  rfl

/-- Claim C9, witness: the example record logs three identical
conditioning-then-slicing sequences. -/
theorem claim9_witness : pW.logs.length = 3 := by
  rw [claim9_conditioning_order envW cfgW recW pW addData_envW]
  rfl

/-- When the cache file exists, the `prepare=True` constructor returns at
once: empty state, file system untouched. -/
theorem initPrepare_cache_hit (env : SignalEnv) (cfg : DataConfig) (fs : FS)
    (asdf_file_path : String) (archive : List (String × WaveRecord)) (b : SavedBlob)
    (h : fs.lookup (cachePathFor asdf_file_path) = some b) :
    initPrepare env cfg fs asdf_file_path archive = .ok (emptyState, fs) := by
  unfold initPrepare
  rw [h]

/-- Claim C6: preparing on a fresh cache path and then loading from that
path restores exactly the in-memory state produced by the preparation —
key list and all four mappings. -/
theorem claim6_roundtrip (env : SignalEnv) (cfg : DataConfig) (fs : FS)
    (asdf_file_path : String) (archive : List (String × WaveRecord)) (st : DState) (fs2 : FS)
    (h0 : fs.lookup (cachePathFor asdf_file_path) = none)
    (h1 : initPrepare env cfg fs asdf_file_path archive = .ok (st, fs2)) :
    initLoad fs2 asdf_file_path = .ok st := by
  unfold initPrepare at h1
  rw [h0] at h1
  rcases hp : prepareAll env cfg archive with e | st0
  · rw [hp] at h1; cases h1
  · rw [hp] at h1
    cases h1
    unfold initLoad
    simp only [List.lookup, beq_self_eq_true, if_true]
    rfl

/-- The archive of the example scenario: one waveform key. -/
def archiveW : List (String × WaveRecord) := [("AA.BB", recW)]

/-- The archive path of the example scenario. -/
def pathW : String := "train.h5"

/-- The dataset state produced by preparing `archiveW`. -/
def stW : DState :=
  ⟨["AA.BB"], [("AA.BB", pW.res)], [("AA.BB", pW.left_res)],
   [("AA.BB", pW.right_res)], [("AA.BB", pW.label)]⟩

/-- The file system after preparing `archiveW` on a fresh path. -/
def fsW : FS := [(cachePathFor pathW, save stW)]

/-- Preparing the example archive yields exactly `stW`. -/
theorem prepareAll_envW : prepareAll envW cfgW archiveW = .ok stW := by
  unfold prepareAll archiveW
  rw [List.foldlM]
  simp only [addData_envW]
  rfl

/-- Preparing the example archive on an empty file system writes the
blob at the cache path. -/
theorem initPrepare_envW : initPrepare envW cfgW [] pathW archiveW = .ok (stW, fsW) := by
  unfold initPrepare
  rw [show (([] : FS).lookup (cachePathFor pathW)) = none from rfl, prepareAll_envW]
  rfl

/-- Claim C6, witness: loading the freshly written example cache restores
the prepared state. -/
theorem claim6_witness : initLoad fsW pathW = .ok stW :=
  claim6_roundtrip envW cfgW [] pathW archiveW stW fsW rfl initPrepare_envW

/-- Claim C7: when the cache file already exists at the deterministic
path (archive path plus `.pt`), a prepare-mode construction performs no
extraction and leaves the file system — in particular the existing cache
entry — unchanged. -/
theorem claim7_idempotent (env : SignalEnv) (cfg : DataConfig) (fs : FS)
    (asdf_file_path : String) (archive : List (String × WaveRecord)) (b : SavedBlob)
    (h : fs.lookup (cachePathFor asdf_file_path) = some b) :
    initPrepare env cfg fs asdf_file_path archive = .ok (emptyState, fs) :=
  initPrepare_cache_hit env cfg fs asdf_file_path archive b h

/-- The example cache lookup succeeds after the first preparation. -/
theorem fsW_lookup : fsW.lookup (cachePathFor pathW) = some (save stW) := by
  simp [fsW, List.lookup]

/-- Claim C7, witness: a second prepare-mode construction on the example
file system is a no-op skip. -/
theorem claim7_witness : initPrepare envW cfgW fsW pathW archiveW = .ok (emptyState, fsW) :=
  claim7_idempotent envW cfgW fsW pathW archiveW (save stW) fsW_lookup

/-- Claim C10: constructed with `prepare=True` over an existing cache
file, the dataset keeps the empty key list and mappings, its length is 0,
every `__getitem__` call fails, and the prepared data is reachable only
through a `prepare=False` construction, which loads the existing blob. -/
theorem claim10_prepare_skip_empty (env : SignalEnv) (cfg : DataConfig) (fs : FS)
    (asdf_file_path : String) (archive : List (String × WaveRecord)) (b : SavedBlob)
    (h : fs.lookup (cachePathFor asdf_file_path) = some b) :
    initPrepare env cfg fs asdf_file_path archive = .ok (emptyState, fs) ∧
    dsLen emptyState = 0 ∧
    (∀ transform stack_transform cfg2 draws r idx stack_main,
      getitem transform stack_transform cfg2 emptyState draws r idx stack_main = none) ∧
    initLoad fs asdf_file_path = .ok (load b) := by
  refine ⟨initPrepare_cache_hit env cfg fs asdf_file_path archive b h, rfl, ?_, ?_⟩
  · intro transform stack_transform cfg2 draws r idx stack_main
    unfold getitem baseSample
    simp [emptyState]
  · unfold initLoad
    rw [h]

/-- Claim C10, witness: the empty state has length 0. -/
theorem claim10_witness : dsLen emptyState = 0 :=
  (claim10_prepare_skip_empty envW cfgW fsW pathW archiveW (save stW) fsW_lookup).2.1

/-- Claim C8 (amended): with a `stack_transform` configured and a
successful secondary draw, the secondary index differs from the primary,
the returned sample is the stacked combination exactly when the uniform
draw `r` satisfies `r ≤ stack_ratio` (the code's comparison at line 168
is non-strict, so `r = 0` stacks even at `stack_ratio = 0`), the
`stack_main=False` recursive call returns the plain transformed sample,
and with `stack_ratio = 1` every draw `r < 1` yields a stacked sample. -/
theorem claim8_stacking (transform : Option (Sample → Sample))
    (stk : Sample → Sample → Sample) (cfg : DataConfig) (s : DState)
    (draws : List ℕ) (r : ℚ) (idx j : ℕ) (s1 s2 : Sample)
    (hj : draws.find? (fun k => k != idx) = some j)
    (h1 : baseSample transform s idx = some s1)
    (h2 : baseSample transform s j = some s2) :
    j ≠ idx ∧
    getitem transform (some stk) cfg s draws r idx true =
      some (if r ≤ cfg.stack_ratio_v then stk s1 s2 else s1) ∧
    getitem transform (some stk) cfg s draws r j false = some s2 ∧
    (r < 1 → getitem transform (some stk) { cfg with stack_ratio_v := 1 } s draws r idx true =
      some (stk s1 s2)) := by
  have hne : j ≠ idx := by
    have := List.find?_some hj
    simpa using this
  refine ⟨hne, ?_, ?_, ?_⟩
  · unfold getitem
    simp only [h1, hj, h2, reduceIte]
    rw [apply_ite some]
  · unfold getitem
    simp only [h2, reduceIte]
    rfl
  · intro hr
    unfold getitem
    simp only [h1, hj, h2, reduceIte]
    rw [if_pos (show r ≤ ({ cfg with stack_ratio_v := 1 } : DataConfig).stack_ratio_v from
      le_of_lt hr)]

/-- The shared tensor rows of the two-key example dataset. -/
def sampleRows : List (List ℚ) := [[1], [2], [3]]

/-- A two-key dataset state for exercising the sample assembler. -/
def sW : DState :=
  ⟨["a", "b"],
   [("a", sampleRows), ("b", sampleRows)],
   [("a", sampleRows), ("b", sampleRows)],
   [("a", sampleRows), ("b", sampleRows)],
   [("a", [0]), ("b", [1])]⟩

/-- The base sample at index 0 of `sW`. -/
def s1W : Sample := ⟨sampleRows, sampleRows, sampleRows, [0], "a"⟩

/-- The base sample at index 1 of `sW`. -/
def s2W : Sample := ⟨sampleRows, sampleRows, sampleRows, [1], "b"⟩

/-- A stacking transform marking its output. -/
def stkW : Sample → Sample → Sample := fun x y => ⟨x.data, y.data, x.left_data, x.arrivals, "STACKED"⟩

/-- Claim C8, witness: with `stack_ratio = 1/2` and a draw of `1/4`, the
call at index 0 returns the stacked combination of both base samples. -/
theorem claim8_witness :
    getitem none (some stkW) cfgW sW [0, 1] (1/4) 0 true = some (stkW s1W s2W) := by
  have h := (claim8_stacking none stkW cfgW sW [0, 1] (1/4) 0 1 s1W s2W rfl rfl rfl).2.1
  rw [h, if_pos (by norm_num [cfgW])]

/-- Claim C8, counterexample: with `stack_ratio = 0` a draw of exactly 0
still stacks (the code compares with `<=`, line 168): the call returns
the output of the stacking transform, which differs from the plain
sample, so "never returns a stacked sample at ratio 0" fails. -/
theorem claim8_counterexample :
    getitem none (some (fun _ _ => ⟨[], [], [], [], "STACKED"⟩))
      ⟨["P", "S"], 5, 5, 20, 1/20, 1, 10, 4, false, 0⟩ sW [1] 0 0 true =
      some ⟨[], [], [], [], "STACKED"⟩ ∧
    baseSample none sW 0 = some s1W ∧
    (⟨[], [], [], [], "STACKED"⟩ : Sample) ≠ s1W := by
  refine ⟨?_, rfl, by simp [s1W, sampleRows]⟩
  unfold getitem
  simp only [show baseSample none sW 0 = some s1W from rfl,
    show ([1] : List ℕ).find? (fun k => k != 0) = some 1 from rfl,
    show baseSample none sW 1 = some s2W from rfl, reduceIte]
  rw [if_pos (show (0 : ℚ) ≤
    (⟨["P", "S"], 5, 5, 20, 1/20, 1, 10, 4, false, 0⟩ : DataConfig).stack_ratio_v from
    le_refl 0)]

end PhaseNet
